import Mathlib

set_option maxRecDepth 8000

/-!
# Verification of the Skyline-ex/loader NRO module loader

A shallow embedding of `src/lib.rs`: byte buffers are `List Nat` (each
element a byte value), machine integers are `Nat` with explicit `% 2^w`
where the Rust code can wrap or truncate, allocations are recorded as
explicit trace values, and the external `nn::ro` / `nn::crypto` services
are oracle parameters.
-/

namespace Loader

/-! ## Byte-buffer primitives

The Rust code reads and writes `u32` values through raw pointers into a
`Vec<u8>`; the target is little-endian, so a `u32` read at byte offset
`off` combines the four bytes `off .. off+3` in little-endian order.
These accessors are total via `Option`: `none` models an out-of-bounds
access (undefined behaviour in the source). -/

/-- Little-endian `u32` read at byte offset `off`; `none` when any of the
four bytes lies outside the buffer. -/
def readU32LE (data : List Nat) (off : Nat) : Option Nat :=
  match data[off]?, data[off+1]?, data[off+2]?, data[off+3]? with
  | some b0, some b1, some b2, some b3 =>
      some (b0 + 256 * b1 + 65536 * b2 + 16777216 * b3)
  | _, _, _, _ => none

/-- Little-endian `u32` write at byte offset `off`; `none` when the four
target bytes do not all lie inside the buffer. -/
def writeU32LE (data : List Nat) (off : Nat) (v : Nat) : Option (List Nat) :=
  if off + 4 ≤ data.length then
    some ((((data.set off (v % 256)).set (off + 1) (v / 256 % 256)).set
      (off + 2) (v / 65536 % 256)).set (off + 3) (v / 16777216 % 256))
  else
    none

/-! ## Errors (`LoaderError`, src/lib.rs lines 13-26)

`IO(std::io::Error)` is modelled by the error's raw OS code. -/

/-- The `LoaderError` enum of the source. -/
inductive LoaderError where
  | IOError (code : Nat)
  | RegistrationError (code : Nat)
  | MountError (code : Nat)
  | InvalidModuleBuffer (code : Nat)
deriving DecidableEq

/-! ## `NroFile` (src/lib.rs lines 41-44) -/

/-- An opened NRO file: raw bytes plus the display name (name bytes,
derived from the path's file name). -/
structure NroFile where
  data : List Nat
  name : List Nat
deriving DecidableEq

/-- `NroFile::fix_bss_size` (src/lib.rs lines 54-67).

The source reads the mod-header offset as a `u32` at byte offset 4, forms
`mod_header = data + mod_header_offset + 0x18`, reads the `u32` fields at
`mod_header.add(3)` (byte offset `+0xC`) and `mod_header.add(7)` (byte
offset `+0x1C`), and when they are equal adds `0xD0` to the first field
(`u32` addition, wrapping at `2^32`). All accesses are unchecked raw
pointer reads/writes; `none` models an access outside the buffer. -/
def NroFile.fix_bss_size (data : List Nat) : Option (List Nat) :=
  match readU32LE data 4 with
  | none => none
  | some mod_header_offset =>
    match readU32LE data (mod_header_offset + 0x18 + 0xC) with
    | none => none
    | some bss_end_offset =>
      match readU32LE data (mod_header_offset + 0x18 + 0x1C) with
      | none => none
      | some module_object_offset =>
        if bss_end_offset = module_object_offset then
          writeU32LE data (mod_header_offset + 0x18 + 0xC)
            ((bss_end_offset + 0xD0) % 2 ^ 32)
        else
          some data

/-! ## `NroFile::mount` (src/lib.rs lines 73-123)

The external `nn::ro` calls are oracles: `GetBufferSize` returns a status
code and (through its out-parameter) a size; `LoadModule` returns a status
code.  Allocations are traced as `(size, align)` pairs together with the
layouts passed to `dealloc`, so release-on-failure behaviour is visible in
the result. -/

/-- A `std::alloc::Layout`: byte size and alignment. -/
structure Alloc where
  size : Nat
  align : Nat
deriving DecidableEq

/-- Oracle for the two external calls made during one mount: the status
and out-size of `nn::ro::GetBufferSize`, and the status of
`nn::ro::LoadModule`. -/
structure MountOracle where
  bufferSizeRc : Nat
  bufferSize : Nat
  loadRc : Nat
deriving DecidableEq

/-- Capacity of the name field of the external `nn::ro::Module` record.
Modelled from the spec: the module record's name field is fixed-capacity
(the record itself lives in the external `nnsdk` crate, not in this
repository); only its being a fixed finite capacity matters here. -/
def moduleNameCap : Nat := 256

/-- `module.Name[0..name.len()].copy_from_slice(name.as_bytes())`
(src/lib.rs line 104) on a zero-initialised record: writes the name bytes
followed by the remaining zero bytes when the name fits; `none` models the
slice-indexing panic when `name.len()` exceeds the field capacity. -/
def copyNameField (name : List Nat) : Option (List Nat) :=
  if name.length ≤ moduleNameCap then
    some (name ++ List.replicate (moduleNameCap - name.length) 0)
  else
    none

/-- The populated module record (the parts this system writes: the copied
name field). -/
structure ModuleRec where
  nameField : List Nat
deriving DecidableEq

/-- Outcome of a single mount attempt. -/
inductive MountOutcome where
  | panic
  | err (e : LoaderError)
  | ok (m : ModuleRec)
deriving DecidableEq

/-- Full trace of one `NroFile::mount` call: the outcome, the layout of
each `alloc` performed, and the layout passed to `dealloc` for each buffer
(`none` when the buffer was not released). -/
structure MountExec where
  result : MountOutcome
  codeAlloc : Alloc
  codeFree : Option Alloc
  bssAlloc : Option Alloc
  bssFree : Option Alloc
deriving DecidableEq

/-- `NroFile::mount` (src/lib.rs lines 73-123).

Step by step, mirroring the source: `layout` is
`Layout::from_size_align(data.len(), 0x1000)` and the code image is
allocated with it; a failing `GetBufferSize` deallocates the image and
returns `InvalidModuleBuffer(rc)`; otherwise `bss_layout` is
`Layout::from_size_align(bss_size, 0x1000)` but the bss buffer itself is
allocated by `alloc::alloc(layout)` (line 99 — with `layout`, not
`bss_layout`); the name is copied into the zeroed record (a panic when it
exceeds the field capacity); a failing `LoadModule` deallocates the image
with `layout` and the bss buffer with `bss_layout` and returns
`MountError(rc)`; on success nothing is released. -/
def NroFile.mount (f : NroFile) (o : MountOracle) : MountExec :=
  let layout : Alloc := ⟨f.data.length, 0x1000⟩
  if o.bufferSizeRc ≠ 0 then
    { result := .err (.InvalidModuleBuffer o.bufferSizeRc)
      codeAlloc := layout, codeFree := some layout
      bssAlloc := none, bssFree := none }
  else
    let bss_size := o.bufferSize
    let bss_layout : Alloc := ⟨bss_size, 0x1000⟩
    match copyNameField f.name with
    | none =>
        { result := .panic
          codeAlloc := layout, codeFree := none
          bssAlloc := some layout, bssFree := none }
    | some nm =>
        if o.loadRc ≠ 0 then
          { result := .err (.MountError o.loadRc)
            codeAlloc := layout, codeFree := some layout
            bssAlloc := some layout, bssFree := some bss_layout }
        else
          { result := .ok ⟨nm⟩
            codeAlloc := layout, codeFree := none
            bssAlloc := some layout, bssFree := none }

/-! ## Registration descriptor (src/lib.rs lines 142-190)

`Sha256Hash` values (`[u8; 0x20]`, src/lib.rs line 29) are byte lists; the
external `nn::crypto::GenerateSha256Hash` primitive is an oracle function
from buffer bytes to hash bytes.  Rust's derived `Ord` on `[u8; 0x20]`
compares lexicographically, embedded as `bytesLe`. -/

/-- Lexicographic (byte-wise) comparison used by `shas.sort()`
(src/lib.rs line 178) through the derived `Ord` of `Sha256Hash`. -/
def bytesLe : List Nat → List Nat → Bool
  | [], _ => true
  | _ :: _, [] => false
  | a :: as, b :: bs =>
      if a < b then true else if b < a then false else bytesLe as bs

/-- The `align_up!` macro (src/lib.rs lines 7-11):
`((x + (a - 1)) & !(a - 1))` over `usize`; the addition wraps at `2^64`
and `!` is 64-bit complement, so `!(a-1) = (2^64 - 1) - (a - 1)`. -/
def align_up (x a : Nat) : Nat :=
  ((x + (a - 1)) % 2 ^ 64) &&& ((2 ^ 64 - 1) - (a - 1))

/-- Byte size of the external `nn::ro::NrrHeader` structure (`0x350`
bytes).  Modelled from the spec: the structure itself lives in the
external `nnsdk` crate, not in this repository; the code uses only
`std::mem::size_of::<NrrHeader>()`, a fixed constant. -/
def nrrHeaderSize : Nat := 0x350

/-- The `NrrHeader` fields the source populates (src/lib.rs lines
167-172); every other byte of the allocation stays zero from
`alloc_zeroed`. -/
structure NrrHeader where
  magic : Nat
  program_id : Nat
  size : Nat
  type_ : Nat
  hashes_offset : Nat
  num_hashes : Nat
deriving DecidableEq

/-- The built registration image: populated header, the hash table that
follows it, and the size of the page-aligned allocation backing it. -/
structure Descriptor where
  header : NrrHeader
  hashes : List (List Nat)
  allocSize : Nat

/-- Building the raw NRR image (src/lib.rs lines 143-178): count the `Ok`
plugins, size and allocate the image, populate the header (`size` and
`num_hashes` are `as u32` casts), hash each `Ok` plugin in order into the
table, then sort the table. -/
def buildDescriptor (program_id : Nat) (hashFn : List Nat → List Nat)
    (plugins : List (Except LoaderError NroFile)) : Descriptor :=
  let num_modules := (plugins.filter (fun p => p.isOk)).length
  let image_size := align_up (nrrHeaderSize + num_modules * 32) 0x1000
  let shas := ((plugins.filterMap Except.toOption).map
      (fun f => hashFn f.data)).mergeSort bytesLe
  { header :=
      { magic := 0x3052524E
        program_id := program_id
        size := image_size % 2 ^ 32
        type_ := 0
        hashes_offset := nrrHeaderSize
        num_hashes := num_modules % 2 ^ 32 }
    hashes := shas
    allocSize := image_size }

/-! ## `mount_from_directory` (src/lib.rs lines 131-202)

Directory enumeration is thin I/O: each directory entry either fails to
read (`let Ok(entry) = entry else continue`), fails the validator filter,
or is opened and fixed up.  `opened r` carries the result of
`NroFile::open(..).map(|mut nro| { nro.fix_bss_size(); nro })`, with an
I/O failure as its raw OS error code. -/

/-- One directory entry's fate in the discovery loop
(src/lib.rs lines 134-140). -/
inductive EntryOutcome where
  | unreadable
  | filtered
  | opened (r : Except Nat NroFile)

/-- The `plugins` vector built by the discovery loop: skipped entries
contribute nothing; an opened entry contributes its preparation result,
with I/O errors wrapped as `LoaderError::IO` (via the `From` impl used by
`NroFile::open`). -/
def collectPlugins (entries : List EntryOutcome) : List (Except LoaderError NroFile) :=
  entries.filterMap fun e =>
    match e with
    | .unreadable => none
    | .filtered => none
    | .opened r => some (r.mapError LoaderError.IOError)

/-- One slot of `plugins.into_iter().map(|p| p.and_then(NroFile::mount))`
(src/lib.rs line 194): a failed preparation is carried through unchanged
with no mount call; otherwise the mount's result, `none` on panic. -/
def mountSlot (mo : NroFile → MountOracle) (p : Except LoaderError NroFile) :
    Option (Except LoaderError ModuleRec) :=
  match p with
  | .error e => some (.error e)
  | .ok f =>
      match (f.mount (mo f)).result with
      | .panic => none
      | .err e => some (.error e)
      | .ok m => some (.ok m)

/-- The full `collect()` over the mount map: slot results in order, `none`
as soon as some mount panics. -/
def mountAll (mo : NroFile → MountOracle) :
    List (Except LoaderError NroFile) → Option (List (Except LoaderError ModuleRec))
  | [] => some []
  | p :: ps =>
      match mountSlot mo p, mountAll mo ps with
      | some s, some rest => some (s :: rest)
      | _, _ => none

/-- The external services consumed by `mount_from_directory`: the hash
primitive, `nn::ro::RegisterModuleInfo`'s status as a function of the
submitted image, and the per-file mount oracles. -/
structure DirOracles where
  hashFn : List Nat → List Nat
  registerFn : Descriptor → Nat
  mountOracle : NroFile → MountOracle

/-- The `MountInfo` returned on success (src/lib.rs lines 126-129); the
`registration_info` handle is opaque external state. -/
structure MountInfo where
  modules : List (Except LoaderError ModuleRec)
  registration_info : Unit

/-- Trace of one `mount_from_directory` call: the descriptor that was
built and submitted, the registration status it received, and the returned
value (`none` models a panic during the mount map). -/
structure DirExec where
  descriptor : Descriptor
  registerRc : Nat
  ret : Option (Except LoaderError MountInfo)

/-- `mount_from_directory` (src/lib.rs lines 131-202): collect plugins,
build the NRR image, submit it to `RegisterModuleInfo`; a non-zero status
returns `RegistrationError` before any mount; otherwise every plugin slot
is mapped through `and_then(NroFile::mount)` in order. -/
def mount_from_directory (program_id : Nat) (entries : List EntryOutcome)
    (o : DirOracles) : DirExec :=
  let plugins := collectPlugins entries
  let desc := buildDescriptor program_id o.hashFn plugins
  let rc := o.registerFn desc
  if rc ≠ 0 then
    { descriptor := desc, registerRc := rc
      ret := some (.error (.RegistrationError rc)) }
  else
    { descriptor := desc, registerRc := rc
      ret := (mountAll o.mountOracle plugins).map
        (fun mods => .ok { modules := mods, registration_info := () }) }

/-- `true` when every successfully prepared plugin's name fits the module
record's name field (the condition under which no mount panics). -/
def namesFit (plugins : List (Except LoaderError NroFile)) : Bool :=
  plugins.all fun p =>
    match p with
    | .error _ => true
    | .ok f => f.name.length ≤ moduleNameCap

/-! ## Spec-side definitions and helper lemmas -/

/-- `roundUp` as the spec words it ("rounded up to the allocation
alignment granularity"): the least multiple of `a` that is `≥ x`,
written in the usual closed form.  This definition follows the spec's
words and is compared against the source's `align_up` macro. -/
def roundUp (x a : Nat) : Nat := ((x + (a - 1)) / a) * a

theorem bytesLe_total : ∀ (a b : List Nat), bytesLe a b || bytesLe b a
  | [], _ => by simp [bytesLe]
  | _ :: _, [] => by simp [bytesLe]
  | a :: as, b :: bs => by
      simp only [bytesLe]
      rcases Nat.lt_trichotomy a b with h | h | h
      · simp [h]
      · subst h
        simpa [Nat.lt_irrefl] using bytesLe_total as bs
      · simp [h, Nat.lt_asymm h]

theorem bytesLe_trans : ∀ (a b c : List Nat),
    bytesLe a b → bytesLe b c → bytesLe a c
  | [], _, _, _, _ => by simp [bytesLe]
  | _ :: _, [], _, h1, _ => by simp [bytesLe] at h1
  | _ :: _, _ :: _, [], _, h2 => by simp [bytesLe] at h2
  | a :: as, b :: bs, c :: cs, h1, h2 => by
      simp only [bytesLe] at h1 h2 ⊢
      rcases Nat.lt_trichotomy a b with hab | hab | hab
      · rcases Nat.lt_trichotomy b c with hbc | hbc | hbc
        · simp [Nat.lt_trans hab hbc]
        · subst hbc; simp [hab]
        · rw [if_neg (Nat.lt_asymm hbc), if_pos hbc] at h2
          exact absurd h2 (by simp)
      · subst hab
        rw [if_neg (Nat.lt_irrefl a), if_neg (Nat.lt_irrefl a)] at h1
        rcases Nat.lt_trichotomy a c with hbc | hbc | hbc
        · simp [hbc]
        · subst hbc
          rw [if_neg (Nat.lt_irrefl a), if_neg (Nat.lt_irrefl a)] at h2 ⊢
          exact bytesLe_trans as bs cs h1 h2
        · rw [if_neg (Nat.lt_asymm hbc), if_pos hbc] at h2
          exact absurd h2 (by simp)
      · rw [if_neg (Nat.lt_asymm hab), if_pos hab] at h1
        exact absurd h1 (by simp)

/-- Clearing the low 12 bits of a 64-bit value with the mask
`!(0x1000 - 1)` rounds down to a multiple of `0x1000`. -/
theorem and_mask_4096 (y : Nat) (hy : y < 2 ^ 64) :
    y &&& (2 ^ 64 - 2 ^ 12) = 2 ^ 12 * (y / 2 ^ 12) := by
  apply Nat.eq_of_testBit_eq
  intro i
  rw [Nat.testBit_and, Nat.testBit_mul_pow_two]
  have hmask : (2 ^ 64 - 2 ^ 12 : Nat) = (2 ^ 52 - 1) <<< 12 := by
    rw [Nat.shiftLeft_eq]; norm_num
  have hdiv : y / 2 ^ 12 = y >>> 12 := (Nat.shiftRight_eq_div_pow y 12).symm
  rw [hmask, Nat.testBit_shiftLeft, Nat.testBit_two_pow_sub_one, hdiv,
    Nat.testBit_shiftRight]
  by_cases h12 : 12 ≤ i
  · have hadd : 12 + (i - 12) = i := by omega
    rw [hadd]
    by_cases h64 : i < 64
    · have h52 : i - 12 < 52 := by omega
      simp [ge_iff_le, h12, h52, Bool.and_comm]
    · have hbit : y.testBit i = false :=
        Nat.testBit_lt_two_pow
          (lt_of_lt_of_le hy (Nat.pow_le_pow_right (by norm_num) (by omega)))
      simp [hbit]
  · simp [ge_iff_le, h12]

/-- The source's `align_up!` agrees with the spec's `roundUp` whenever the
64-bit addition does not wrap. -/
theorem align_up_eq_roundUp (x : Nat) (h : x + 0xFFF < 2 ^ 64) :
    align_up x 0x1000 = roundUp x 0x1000 := by
  unfold align_up roundUp
  have h1 : ((2 : Nat) ^ 64 - 1) - (0x1000 - 1) = 2 ^ 64 - 2 ^ 12 := by norm_num
  have h2 : (x + (0x1000 - 1)) % 2 ^ 64 = x + 0xFFF := by omega
  rw [h1, h2, and_mask_4096 _ h]
  have h3 : x + 0x1000 - 1 = x + 0xFFF := by omega
  norm_num [h3, Nat.mul_comm]

/-- `roundUp` never exceeds `x + (a - 1)`. -/
theorem roundUp_le (x a : Nat) : roundUp x a ≤ x + (a - 1) :=
  Nat.div_mul_le_self _ _

/-- A successful little-endian read means all four bytes are in bounds. -/
theorem readU32LE_bound {data : List Nat} {off v : Nat}
    (h : readU32LE data off = some v) : off + 4 ≤ data.length := by
  by_contra hlen
  have hnone : data[off + 3]? = none := List.getElem?_eq_none (by omega)
  unfold readU32LE at h
  split at h
  · rename_i b0 b1 b2 b3 _ _ _ heq
    rw [hnone] at heq
    cases heq
  · cases h

/-- A successful little-endian write: the four target bytes hold the
little-endian limbs of `v`, the length is preserved, and every byte
outside `off .. off+3` is untouched. -/
theorem writeU32LE_spec (data : List Nat) (off v : Nat) (h : off + 4 ≤ data.length) :
    ∃ data', writeU32LE data off v = some data' ∧
      data'.length = data.length ∧
      data'[off]? = some (v % 256) ∧
      data'[off + 1]? = some (v / 256 % 256) ∧
      data'[off + 2]? = some (v / 65536 % 256) ∧
      data'[off + 3]? = some (v / 16777216 % 256) ∧
      ∀ i, i < off ∨ off + 4 ≤ i → data'[i]? = data[i]? := by
  refine ⟨_, by unfold writeU32LE; rw [if_pos h], by simp, ?_, ?_, ?_, ?_, ?_⟩
  · rw [List.getElem?_set_ne (by omega), List.getElem?_set_ne (by omega),
      List.getElem?_set_ne (by omega), List.getElem?_set_self (by simpa using by omega)]
  · rw [List.getElem?_set_ne (by omega), List.getElem?_set_ne (by omega),
      List.getElem?_set_self (by simpa using by omega)]
  · rw [List.getElem?_set_ne (by omega),
      List.getElem?_set_self (by simpa using by omega)]
  · rw [List.getElem?_set_self (by simpa using by omega)]
  · intro i hi
    rw [List.getElem?_set_ne (by omega), List.getElem?_set_ne (by omega),
      List.getElem?_set_ne (by omega), List.getElem?_set_ne (by omega)]

/-- Reading four in-bounds bytes combines them little-endian. -/
theorem readU32LE_eq {data : List Nat} {off b0 b1 b2 b3 : Nat}
    (h0 : data[off]? = some b0) (h1 : data[off + 1]? = some b1)
    (h2 : data[off + 2]? = some b2) (h3 : data[off + 3]? = some b3) :
    readU32LE data off = some (b0 + 256 * b1 + 65536 * b2 + 16777216 * b3) := by
  unfold readU32LE
  rw [h0, h1, h2, h3]

/-- A plugin whose preparation failed keeps its error in its slot, for any
mount oracle: no mount call is involved in producing it. -/
theorem mountSlot_error (mo : NroFile → MountOracle) (e : LoaderError) :
    mountSlot mo (.error e) = some (.error e) := rfl

/-- A mount of a file whose name fits the module name field never
panics. -/
theorem mount_result_ne_panic (f : NroFile) (o : MountOracle)
    (h : f.name.length ≤ moduleNameCap) : (f.mount o).result ≠ .panic := by
  have hcopy : copyNameField f.name =
      some (f.name ++ List.replicate (moduleNameCap - f.name.length) 0) := by
    unfold copyNameField; rw [if_pos h]
  by_cases hrc : o.bufferSizeRc ≠ 0
  · simp [NroFile.mount, hrc]
  · by_cases hl : o.loadRc ≠ 0 <;> simp [NroFile.mount, hrc, hl, hcopy]

/-- A prepared plugin whose name fits the module name field produces a
slot value (mount cannot panic). -/
theorem mountSlot_ok_isSome (mo : NroFile → MountOracle) (f : NroFile)
    (h : f.name.length ≤ moduleNameCap) :
    ∃ s, mountSlot mo (.ok f) = some s := by
  have hdef : mountSlot mo (.ok f) =
      match (f.mount (mo f)).result with
      | .panic => none
      | .err e => some (.error e)
      | .ok m => some (.ok m) := rfl
  cases hres : (f.mount (mo f)).result with
  | panic => exact absurd hres (mount_result_ne_panic f (mo f) h)
  | err e => exact ⟨.error e, by rw [hdef, hres]⟩
  | ok m => exact ⟨.ok m, by rw [hdef, hres]⟩

/-- `mountAll` on a successful run returns one slot per plugin, in order,
and the slot at each position is `mountSlot` of the plugin at that same
position. -/
theorem mountAll_spec (mo : NroFile → MountOracle) :
    ∀ (ps : List (Except LoaderError NroFile))
      (mods : List (Except LoaderError ModuleRec)),
    mountAll mo ps = some mods →
    mods.length = ps.length ∧
      ∀ (i : Nat) (h1 : i < ps.length) (h2 : i < mods.length),
        mountSlot mo (ps.get ⟨i, h1⟩) = some (mods.get ⟨i, h2⟩)
  | [], mods, h => by
      unfold mountAll at h
      cases h
      exact ⟨rfl, fun i h1 _ => absurd h1 (by simp)⟩
  | p :: ps, mods, h => by
      unfold mountAll at h
      cases hs : mountSlot mo p with
      | none => rw [hs] at h; cases h
      | some s =>
          cases hrest : mountAll mo ps with
          | none => rw [hs, hrest] at h; cases h
          | some rest =>
              rw [hs, hrest] at h
              cases h
              obtain ⟨hlen, hget⟩ := mountAll_spec mo ps rest hrest
              refine ⟨by simp [hlen], ?_⟩
              intro i h1 h2
              cases i with
              | zero => simpa using hs
              | succ n =>
                  simpa using hget n (by simpa using h1) (by simpa using h2)

/-- When every prepared plugin's name fits, no mount panics and the whole
mount map produces a value. -/
theorem mountAll_isSome (mo : NroFile → MountOracle) :
    ∀ ps : List (Except LoaderError NroFile), namesFit ps = true →
      ∃ mods, mountAll mo ps = some mods
  | [], _ => ⟨[], rfl⟩
  | p :: ps, h => by
      rw [namesFit, List.all_cons, Bool.and_eq_true] at h
      obtain ⟨mods, hm⟩ := mountAll_isSome mo ps h.2
      have hslot : ∃ s, mountSlot mo p = some s := by
        cases p with
        | error e => exact ⟨_, mountSlot_error mo e⟩
        | ok f =>
            apply mountSlot_ok_isSome
            simpa using h.1
      obtain ⟨s, hs⟩ := hslot
      exact ⟨s :: mods, by unfold mountAll; rw [hs, hm]⟩

/-- Counting `Ok` plugins with `filter` and extracting them with
`filterMap` agree. -/
theorem length_filterMap_toOption (ps : List (Except LoaderError NroFile)) :
    (ps.filterMap Except.toOption).length = (ps.filter (fun p => p.isOk)).length := by
  induction ps with
  | nil => rfl
  | cons p ps ih =>
      cases p <;>
        simp [List.filterMap_cons, List.filter_cons, Except.toOption,
          Except.isOk, Except.toBool, ih]

/-- If no plugin prepared successfully, every plugin is an error value. -/
theorem all_error_of_filter_isOk_nil {ps : List (Except LoaderError NroFile)}
    (h : ps.filter (fun p => p.isOk) = []) : ∀ p ∈ ps, ∃ e, p = .error e := by
  intro p hp
  have hnot := (List.filter_eq_nil_iff.mp h) p hp
  cases p with
  | error e => exact ⟨e, rfl⟩
  | ok f => simp [Except.isOk, Except.toBool] at hnot

/-- A list of plugins that are all errors trivially satisfies `namesFit`. -/
theorem namesFit_of_all_error {ps : List (Except LoaderError NroFile)}
    (h : ∀ p ∈ ps, ∃ e, p = .error e) : namesFit ps = true := by
  rw [namesFit, List.all_eq_true]
  intro p hp
  obtain ⟨e, he⟩ := h p hp
  subst he
  rfl

/-- The descriptor recorded by `mount_from_directory` is the one built
from the collected plugins, on both branches of the registration call. -/
theorem mount_from_directory_descriptor (pid : Nat) (entries : List EntryOutcome)
    (o : DirOracles) :
    (mount_from_directory pid entries o).descriptor =
      buildDescriptor pid o.hashFn (collectPlugins entries) := by
  simp only [mount_from_directory]
  split <;> rfl

/-! ## Claim theorems -/

/-- C1: the claim states that the second page-aligned buffer (the
uninitialized-data segment) is allocated with size equal to the queried
scratch size.  The code instead allocates it with `alloc::alloc(layout)`
(src/lib.rs line 99), the code buffer's layout of size `data.len()`:
whenever the size query succeeds, the bss buffer's allocation has the
code buffer's size, not the queried `bss_size`. -/
theorem c1_bss_alloc_uses_code_layout (f : NroFile) (o : MountOracle)
    (h : o.bufferSizeRc = 0) :
    (f.mount o).bssAlloc = some ⟨f.data.length, 0x1000⟩ := by
  cases hcopy : copyNameField f.name with
  | none => simp [NroFile.mount, h, hcopy]
  | some nm => by_cases hl : o.loadRc ≠ 0 <;> simp [NroFile.mount, h, hcopy, hl]

/-- Witness for C1: a 0x100-byte image whose scratch-size query reports
0x2000 bytes still gets a 0x100-byte bss allocation. -/
theorem c1_bss_alloc_uses_code_layout_witness :
    (NroFile.mount ⟨List.replicate 0x100 0, [65]⟩ ⟨0, 0x2000, 0⟩).bssAlloc =
      some ⟨0x100, 0x1000⟩ ∧ (0x100 : Nat) ≠ 0x2000 :=
  ⟨c1_bss_alloc_uses_code_layout ⟨List.replicate 0x100 0, [65]⟩ ⟨0, 0x2000, 0⟩ rfl,
    by decide⟩

/-- C4: `mount` releases exactly the allocations existing at the point of
failure: a failing scratch-size query releases the code buffer and
returns `InvalidModuleBuffer(code)` (the bss buffer was never allocated);
a failing mount call releases both buffers and returns
`MountError(code)`; a successful mount releases neither. -/
theorem c4_mount_release (f : NroFile) (o : MountOracle)
    (hname : f.name.length ≤ moduleNameCap) :
    (o.bufferSizeRc ≠ 0 →
      f.mount o =
        { result := .err (.InvalidModuleBuffer o.bufferSizeRc)
          codeAlloc := ⟨f.data.length, 0x1000⟩
          codeFree := some ⟨f.data.length, 0x1000⟩
          bssAlloc := none, bssFree := none }) ∧
    (o.bufferSizeRc = 0 → o.loadRc ≠ 0 →
      f.mount o =
        { result := .err (.MountError o.loadRc)
          codeAlloc := ⟨f.data.length, 0x1000⟩
          codeFree := some ⟨f.data.length, 0x1000⟩
          bssAlloc := some ⟨f.data.length, 0x1000⟩
          bssFree := some ⟨o.bufferSize, 0x1000⟩ }) ∧
    (o.bufferSizeRc = 0 → o.loadRc = 0 →
      (f.mount o).codeFree = none ∧ (f.mount o).bssFree = none) := by
  have hcopy : copyNameField f.name =
      some (f.name ++ List.replicate (moduleNameCap - f.name.length) 0) := by
    unfold copyNameField; rw [if_pos hname]
  refine ⟨fun h1 => ?_, fun h1 h2 => ?_, fun h1 h2 => ?_⟩
  · simp [NroFile.mount, h1]
  · simp [NroFile.mount, h1, h2, hcopy]
  · simp [NroFile.mount, h1, h2, hcopy]

/-- Witness for C4: a 4-byte image whose mount call fails with status 9
after a scratch-size query reporting 7 bytes releases both buffers. -/
theorem c4_mount_release_witness :
    NroFile.mount ⟨[1, 2, 3, 4], [65, 66]⟩ ⟨0, 7, 9⟩ =
      { result := .err (.MountError 9)
        codeAlloc := ⟨4, 0x1000⟩
        codeFree := some ⟨4, 0x1000⟩
        bssAlloc := some ⟨4, 0x1000⟩
        bssFree := some ⟨7, 0x1000⟩ } :=
  (c4_mount_release ⟨[1, 2, 3, 4], [65, 66]⟩ ⟨0, 7, 9⟩ (by decide)).2.1 rfl (by decide)

/-- C5: `fix_bss_size` reads the `u32` fields at byte offsets
`mho + 0x18 + 0xC` and `mho + 0x18 + 0x1C`, `mho` being the `u32` at byte
offset 4; when they differ the buffer is returned unchanged, and when
they are equal the first field is advanced by `0xD0` (`u32` arithmetic)
with every byte outside that one field unchanged. -/
theorem c5_fix_bss_field_update (data : List Nat) (mho bssEnd modObj : Nat)
    (h1 : readU32LE data 4 = some mho)
    (h2 : readU32LE data (mho + 0x18 + 0xC) = some bssEnd)
    (h3 : readU32LE data (mho + 0x18 + 0x1C) = some modObj) :
    (bssEnd ≠ modObj → NroFile.fix_bss_size data = some data) ∧
    (bssEnd = modObj → ∃ data',
      NroFile.fix_bss_size data = some data' ∧
      data'.length = data.length ∧
      readU32LE data' (mho + 0x18 + 0xC) = some ((bssEnd + 0xD0) % 2 ^ 32) ∧
      ∀ i, i < mho + 0x18 + 0xC ∨ mho + 0x18 + 0xC + 4 ≤ i →
        data'[i]? = data[i]?) := by
  constructor
  · intro hne
    rw [NroFile.fix_bss_size, h1]
    simp only [h2, h3]
    rw [if_neg hne]
  · intro heq
    subst heq
    have hb := readU32LE_bound h2
    obtain ⟨data', hw, hlen, hb0, hb1, hb2, hb3, hout⟩ :=
      writeU32LE_spec data (mho + 0x18 + 0xC) ((bssEnd + 0xD0) % 2 ^ 32) hb
    refine ⟨data', ?_, hlen, ?_, hout⟩
    · rw [NroFile.fix_bss_size, h1]
      simp only [h2, h3]
      rw [if_pos trivial, hw]
    · rw [readU32LE_eq hb0 hb1 hb2 hb3]
      congr 1
      omega

/-- Witness for C5: a 56-byte all-zero buffer has `mho = 0` and equal
fields, so fix-up writes `0xD0` into the field at offset `0x24`. -/
theorem c5_fix_bss_field_update_witness :
    ((0 : Nat) ≠ 0 →
      NroFile.fix_bss_size (List.replicate 56 0) = some (List.replicate 56 0)) ∧
    ((0 : Nat) = 0 → ∃ data',
      NroFile.fix_bss_size (List.replicate 56 0) = some data' ∧
      data'.length = (List.replicate 56 0 : List Nat).length ∧
      readU32LE data' (0 + 0x18 + 0xC) = some ((0 + 0xD0) % 2 ^ 32) ∧
      ∀ i, i < 0 + 0x18 + 0xC ∨ 0 + 0x18 + 0xC + 4 ≤ i →
        data'[i]? = (List.replicate 56 0 : List Nat)[i]?) :=
  c5_fix_bss_field_update (List.replicate 56 0) 0 0 0
    (by decide) (by decide) (by decide)

/-- C8 counterexample: the claim says a name longer than the module
record's name field is copied truncated, the operation succeeding.  In
the code `module.Name[0..name.len()]` panics for such a name: at a name
of length `moduleNameCap + 1` the copy aborts instead of truncating. -/
theorem c8_long_name_panics :
    copyNameField (List.replicate (moduleNameCap + 1) 65) = none ∧
    (NroFile.mount ⟨[0], List.replicate (moduleNameCap + 1) 65⟩ ⟨0, 0, 0⟩).result =
      .panic := by
  constructor
  · decide
  · decide

/-- C8 amended: the name is copied (followed by the zero bytes of the
zero-initialised record) exactly when it fits the field's capacity; a
longer name makes the slice copy panic rather than truncate. -/
theorem c8_name_copy (name : List Nat) :
    (name.length ≤ moduleNameCap →
      copyNameField name =
        some (name ++ List.replicate (moduleNameCap - name.length) 0)) ∧
    (moduleNameCap < name.length → copyNameField name = none) := by
  constructor
  · intro h; unfold copyNameField; rw [if_pos h]
  · intro h; unfold copyNameField; rw [if_neg (by omega)]

/-- Witness for C8: a one-byte name is copied with zero padding; a
300-byte name panics. -/
theorem c8_name_copy_witness :
    copyNameField [65] = some ([65] ++ List.replicate 255 0) ∧
    copyNameField (List.replicate 300 66) = none :=
  ⟨(c8_name_copy [65]).1 (by decide),
    (c8_name_copy (List.replicate 300 66)).2 (by decide)⟩

/-- C9: `fix_bss_size` dereferences the sub-header offset without
validating it against the buffer length: a buffer shorter than 8 bytes
fails at the very first read, and an 8-byte-or-longer buffer shorter than
`mho + 0x18 + 0x20` fails at the sub-header reads — in the total
embedding the out-of-bounds (`none`) branch is reachable both ways. -/
theorem c9_fix_bss_oob_reachable :
    (∃ data : List Nat, data.length < 8 ∧ NroFile.fix_bss_size data = none) ∧
    (∃ data : List Nat, 8 ≤ data.length ∧ NroFile.fix_bss_size data = none) :=
  ⟨⟨List.replicate 4 0, by decide, by decide⟩,
    ⟨List.replicate 16 0, by decide, by decide⟩⟩

/-- C2: the hash table of the built descriptor is sorted ascending
(lexicographically on the hash bytes), is exactly the multiset of hashes
of the successfully-prepared images (failed preparations contribute
nothing), and the header's hash count equals the number of successful
images. -/
theorem c2_hash_table (pid : Nat) (entries : List EntryOutcome) (o : DirOracles)
    (hcount : ((collectPlugins entries).filter (fun p => p.isOk)).length < 2 ^ 32) :
    ((mount_from_directory pid entries o).descriptor.hashes).Pairwise
        (fun a b => bytesLe a b) ∧
    ((mount_from_directory pid entries o).descriptor.hashes).Perm
        (((collectPlugins entries).filterMap Except.toOption).map
          (fun f => o.hashFn f.data)) ∧
    (mount_from_directory pid entries o).descriptor.header.num_hashes =
      ((collectPlugins entries).filter (fun p => p.isOk)).length ∧
    ((mount_from_directory pid entries o).descriptor.hashes).length =
      ((collectPlugins entries).filter (fun p => p.isOk)).length := by
  rw [mount_from_directory_descriptor]
  have hlen : (buildDescriptor pid o.hashFn (collectPlugins entries)).hashes.length
      = ((collectPlugins entries).filter (fun p => p.isOk)).length := by
    show ((((collectPlugins entries).filterMap Except.toOption).map
        (fun f => o.hashFn f.data)).mergeSort bytesLe).length = _
    rw [(List.mergeSort_perm _ _).length_eq, List.length_map,
      length_filterMap_toOption]
  exact ⟨List.sorted_mergeSort bytesLe_trans bytesLe_total _,
    List.mergeSort_perm _ _, Nat.mod_eq_of_lt hcount, hlen⟩

/-- Witness for C2: a batch with one failed and two successful images
yields a sorted two-entry table and hash count 2. -/
theorem c2_hash_table_witness :
    ((mount_from_directory 7
        [EntryOutcome.opened (.ok ⟨[9], [65]⟩), EntryOutcome.opened (.error 2),
          EntryOutcome.opened (.ok ⟨[3], [66]⟩)]
        ⟨fun d => d, fun _ => 0, fun _ => ⟨0, 0, 0⟩⟩).descriptor.hashes).Pairwise
        (fun a b => bytesLe a b) ∧
    ((mount_from_directory 7
        [EntryOutcome.opened (.ok ⟨[9], [65]⟩), EntryOutcome.opened (.error 2),
          EntryOutcome.opened (.ok ⟨[3], [66]⟩)]
        ⟨fun d => d, fun _ => 0, fun _ => ⟨0, 0, 0⟩⟩).descriptor.hashes).Perm
        (((collectPlugins
            [EntryOutcome.opened (.ok ⟨[9], [65]⟩), EntryOutcome.opened (.error 2),
              EntryOutcome.opened (.ok ⟨[3], [66]⟩)]).filterMap
            Except.toOption).map (fun f => f.data)) ∧
    (mount_from_directory 7
        [EntryOutcome.opened (.ok ⟨[9], [65]⟩), EntryOutcome.opened (.error 2),
          EntryOutcome.opened (.ok ⟨[3], [66]⟩)]
        ⟨fun d => d, fun _ => 0, fun _ => ⟨0, 0, 0⟩⟩).descriptor.header.num_hashes =
      2 ∧
    ((mount_from_directory 7
        [EntryOutcome.opened (.ok ⟨[9], [65]⟩), EntryOutcome.opened (.error 2),
          EntryOutcome.opened (.ok ⟨[3], [66]⟩)]
        ⟨fun d => d, fun _ => 0, fun _ => ⟨0, 0, 0⟩⟩).descriptor.hashes).length = 2 :=
  c2_hash_table 7
    [EntryOutcome.opened (.ok ⟨[9], [65]⟩), EntryOutcome.opened (.error 2),
      EntryOutcome.opened (.ok ⟨[3], [66]⟩)]
    ⟨fun d => d, fun _ => 0, fun _ => ⟨0, 0, 0⟩⟩ (by decide)

/-- C3: when the registration call reports a non-zero status,
`mount_from_directory` returns `RegistrationError` with that status, and
the whole run is independent of the mount oracle — no mount call is
attempted for any candidate. -/
theorem c3_registration_error (pid : Nat) (entries : List EntryOutcome)
    (o : DirOracles)
    (hrc : o.registerFn (buildDescriptor pid o.hashFn (collectPlugins entries)) ≠ 0) :
    (mount_from_directory pid entries o).ret =
      some (.error (.RegistrationError
        (o.registerFn (buildDescriptor pid o.hashFn (collectPlugins entries))))) ∧
    ∀ mo : NroFile → MountOracle,
      mount_from_directory pid entries { o with mountOracle := mo } =
        mount_from_directory pid entries o := by
  constructor
  · simp only [mount_from_directory]
    rw [if_pos hrc]
  · intro mo
    simp only [mount_from_directory]
    rw [if_pos hrc, if_pos hrc]

/-- Witness for C3: registration status 3 aborts a one-candidate batch
with `RegistrationError 3` whatever the mount oracle does. -/
theorem c3_registration_error_witness :
    (mount_from_directory 7 [EntryOutcome.opened (.error 11)]
        ⟨fun d => d, fun _ => 3, fun _ => ⟨0, 0, 0⟩⟩).ret =
      some (.error (.RegistrationError 3)) ∧
    mount_from_directory 7 [EntryOutcome.opened (.error 11)]
        ⟨fun d => d, fun _ => 3, fun _ => ⟨1, 2, 3⟩⟩ =
      mount_from_directory 7 [EntryOutcome.opened (.error 11)]
        ⟨fun d => d, fun _ => 3, fun _ => ⟨0, 0, 0⟩⟩ :=
  ⟨(c3_registration_error 7 [EntryOutcome.opened (.error 11)]
      ⟨fun d => d, fun _ => 3, fun _ => ⟨0, 0, 0⟩⟩ (by decide)).1,
    (c3_registration_error 7 [EntryOutcome.opened (.error 11)]
      ⟨fun d => d, fun _ => 3, fun _ => ⟨0, 0, 0⟩⟩ (by decide)).2
      (fun _ => ⟨1, 2, 3⟩)⟩

/-- C6: for a batch with `N` successfully-prepared images, the
descriptor's declared `size` field equals
`roundUp(sizeof(NrrHeader) + N * 32, 4096)` and equals the size of the
buffer allocated for the descriptor. -/
theorem c6_descriptor_size (pid : Nat) (entries : List EntryOutcome) (o : DirOracles)
    (h : nrrHeaderSize +
        ((collectPlugins entries).filter (fun p => p.isOk)).length * 32 + 0xFFF
        < 2 ^ 32) :
    (mount_from_directory pid entries o).descriptor.header.size =
      roundUp (nrrHeaderSize +
        ((collectPlugins entries).filter (fun p => p.isOk)).length * 32) 0x1000 ∧
    (mount_from_directory pid entries o).descriptor.allocSize =
      roundUp (nrrHeaderSize +
        ((collectPlugins entries).filter (fun p => p.isOk)).length * 32) 0x1000 := by
  rw [mount_from_directory_descriptor]
  have h64 : nrrHeaderSize +
      ((collectPlugins entries).filter (fun p => p.isOk)).length * 32 + 0xFFF
      < 2 ^ 64 := lt_trans h (by norm_num)
  have halign := align_up_eq_roundUp
    (nrrHeaderSize + ((collectPlugins entries).filter (fun p => p.isOk)).length * 32)
    h64
  constructor
  · show align_up (nrrHeaderSize +
        ((collectPlugins entries).filter (fun p => p.isOk)).length * 32) 0x1000
        % 2 ^ 32 = _
    rw [halign]
    exact Nat.mod_eq_of_lt (lt_of_le_of_lt (roundUp_le _ _) (by omega))
  · exact halign

/-- Witness for C6: one successful image gives declared size and
allocation size `roundUp(0x350 + 32, 4096) = 0x1000`. -/
theorem c6_descriptor_size_witness :
    (mount_from_directory 7 [EntryOutcome.opened (.ok ⟨[5], [65]⟩)]
        ⟨fun d => d, fun _ => 0, fun _ => ⟨0, 0, 0⟩⟩).descriptor.header.size =
      roundUp (nrrHeaderSize + 1 * 32) 0x1000 ∧
    (mount_from_directory 7 [EntryOutcome.opened (.ok ⟨[5], [65]⟩)]
        ⟨fun d => d, fun _ => 0, fun _ => ⟨0, 0, 0⟩⟩).descriptor.allocSize =
      roundUp (nrrHeaderSize + 1 * 32) 0x1000 :=
  c6_descriptor_size 7 [EntryOutcome.opened (.ok ⟨[5], [65]⟩)]
    ⟨fun d => d, fun _ => 0, fun _ => ⟨0, 0, 0⟩⟩ (by decide)

/-- C7: per-candidate independence and order preservation — a prepared
plugin's slot is a function of that plugin and the oracles alone
(`mountSlot`), a failed preparation keeps its own error for any mount
oracle with no mount involved, and on a successful registration the
result has exactly one slot per candidate that passed the filter, in
discovery order. -/
theorem c7_per_candidate (pid : Nat) (entries : List EntryOutcome) (o : DirOracles)
    (hreg : o.registerFn (buildDescriptor pid o.hashFn (collectPlugins entries)) = 0)
    (hnames : namesFit (collectPlugins entries) = true) :
    (∀ (e : LoaderError) (mo : NroFile → MountOracle),
      mountSlot mo (.error e) = some (.error e)) ∧
    ∃ mods, (mount_from_directory pid entries o).ret =
        some (.ok { modules := mods, registration_info := () }) ∧
      mods.length = (collectPlugins entries).length ∧
      ∀ (i : Nat) (h1 : i < (collectPlugins entries).length) (h2 : i < mods.length),
        mountSlot o.mountOracle ((collectPlugins entries).get ⟨i, h1⟩) =
          some (mods.get ⟨i, h2⟩) := by
  refine ⟨fun e mo => rfl, ?_⟩
  obtain ⟨mods, hm⟩ := mountAll_isSome o.mountOracle _ hnames
  obtain ⟨hlen, hslots⟩ := mountAll_spec o.mountOracle _ mods hm
  refine ⟨mods, ?_, hlen, hslots⟩
  simp only [mount_from_directory]
  rw [if_neg (by simp [hreg]), hm]
  rfl

/-- Witness for C7: a three-candidate batch where the first image's
scratch-size query fails (status 5), the second candidate failed to open
(I/O error 3), and the third mounts — each slot gets its own outcome. -/
theorem c7_per_candidate_witness :
    (∀ (e : LoaderError) (mo : NroFile → MountOracle),
      mountSlot mo (.error e) = some (.error e)) ∧
    ∃ mods, (mount_from_directory 7
        [EntryOutcome.opened (.ok ⟨[1], [49]⟩), EntryOutcome.opened (.error 3),
          EntryOutcome.opened (.ok ⟨[2], [50]⟩)]
        ⟨fun d => d, fun _ => 0,
          fun f => if f.name = [49] then ⟨5, 0, 0⟩ else ⟨0, 0, 0⟩⟩).ret =
        some (.ok { modules := mods, registration_info := () }) ∧
      mods.length = (collectPlugins
        [EntryOutcome.opened (.ok ⟨[1], [49]⟩), EntryOutcome.opened (.error 3),
          EntryOutcome.opened (.ok ⟨[2], [50]⟩)]).length ∧
      ∀ (i : Nat) (h1 : i < (collectPlugins
          [EntryOutcome.opened (.ok ⟨[1], [49]⟩), EntryOutcome.opened (.error 3),
            EntryOutcome.opened (.ok ⟨[2], [50]⟩)]).length) (h2 : i < mods.length),
        mountSlot (fun f => if f.name = [49] then ⟨5, 0, 0⟩ else ⟨0, 0, 0⟩)
            ((collectPlugins
              [EntryOutcome.opened (.ok ⟨[1], [49]⟩), EntryOutcome.opened (.error 3),
                EntryOutcome.opened (.ok ⟨[2], [50]⟩)]).get ⟨i, h1⟩) =
          some (mods.get ⟨i, h2⟩) :=
  c7_per_candidate 7
    [EntryOutcome.opened (.ok ⟨[1], [49]⟩), EntryOutcome.opened (.error 3),
      EntryOutcome.opened (.ok ⟨[2], [50]⟩)]
    ⟨fun d => d, fun _ => 0, fun f => if f.name = [49] then ⟨5, 0, 0⟩ else ⟨0, 0, 0⟩⟩
    rfl (by decide)

/-- C10: even with zero successfully-prepared candidates the descriptor
is still built — hash count 0, empty table, size
`roundUp(sizeof(NrrHeader), 4096)` — and submitted; when registration
succeeds, the result has one error slot per candidate that passed the
filter. -/
theorem c10_empty_batch (pid : Nat) (entries : List EntryOutcome) (o : DirOracles)
    (hnone : (collectPlugins entries).filter (fun p => p.isOk) = []) :
    (mount_from_directory pid entries o).descriptor.header.num_hashes = 0 ∧
    (mount_from_directory pid entries o).descriptor.hashes = [] ∧
    (mount_from_directory pid entries o).descriptor.header.size =
      roundUp nrrHeaderSize 0x1000 ∧
    (mount_from_directory pid entries o).descriptor.allocSize =
      roundUp nrrHeaderSize 0x1000 ∧
    (o.registerFn (mount_from_directory pid entries o).descriptor = 0 →
      ∃ mods, (mount_from_directory pid entries o).ret =
          some (.ok { modules := mods, registration_info := () }) ∧
        mods.length = (collectPlugins entries).length ∧
        ∀ r ∈ mods, ∃ e, r = .error e) := by
  rw [mount_from_directory_descriptor]
  have herr := all_error_of_filter_isOk_nil hnone
  have hzero : ((collectPlugins entries).filter (fun p => p.isOk)).length = 0 := by
    rw [hnone]; rfl
  have hmapnil : (collectPlugins entries).filterMap Except.toOption = [] := by
    rw [List.filterMap_eq_nil_iff]
    intro p hp
    obtain ⟨e, he⟩ := herr p hp
    subst he; rfl
  have h0 : nrrHeaderSize +
      ((collectPlugins entries).filter (fun p => p.isOk)).length * 32 =
      nrrHeaderSize := by omega
  have halign : align_up (nrrHeaderSize +
      ((collectPlugins entries).filter (fun p => p.isOk)).length * 32) 0x1000 =
      roundUp nrrHeaderSize 0x1000 := by
    rw [h0]
    exact align_up_eq_roundUp nrrHeaderSize (by norm_num [nrrHeaderSize])
  refine ⟨?_, ?_, ?_, ?_, ?_⟩
  · show ((collectPlugins entries).filter (fun p => p.isOk)).length % 2 ^ 32 = 0
    rw [hzero]
    simp
  · show ((((collectPlugins entries).filterMap Except.toOption).map
        (fun f => o.hashFn f.data)).mergeSort bytesLe) = []
    rw [hmapnil]
    simp
  · show align_up (nrrHeaderSize +
        ((collectPlugins entries).filter (fun p => p.isOk)).length * 32) 0x1000
        % 2 ^ 32 = roundUp nrrHeaderSize 0x1000
    rw [halign]
    exact Nat.mod_eq_of_lt (by norm_num [roundUp, nrrHeaderSize])
  · exact halign
  · intro hreg
    obtain ⟨mods, hm⟩ :=
      mountAll_isSome o.mountOracle _ (namesFit_of_all_error herr)
    obtain ⟨hlen, hslots⟩ := mountAll_spec o.mountOracle _ mods hm
    refine ⟨mods, ?_, hlen, ?_⟩
    · simp only [mount_from_directory]
      rw [if_neg (by simp [hreg]), hm]
      rfl
    · intro r hr
      rw [List.mem_iff_getElem] at hr
      obtain ⟨i, hi, hget⟩ := hr
      have h1 : i < (collectPlugins entries).length := hlen ▸ hi
      have hs := hslots i h1 hi
      obtain ⟨e, he⟩ :=
        herr _ (List.get_mem (collectPlugins entries) i h1)
      rw [he, mountSlot_error] at hs
      refine ⟨e, ?_⟩
      have := Option.some.inj hs
      rw [← hget]
      simp only [List.get_eq_getElem] at this
      exact this.symm

/-- Witness for C10: a batch whose only candidate failed to open still
builds and submits a header-only descriptor and returns one error slot. -/
theorem c10_empty_batch_witness :
    (mount_from_directory 7 [EntryOutcome.opened (.error 5), EntryOutcome.unreadable]
        ⟨fun d => d, fun _ => 0, fun _ => ⟨0, 0, 0⟩⟩).descriptor.header.num_hashes =
      0 ∧
    (mount_from_directory 7 [EntryOutcome.opened (.error 5), EntryOutcome.unreadable]
        ⟨fun d => d, fun _ => 0, fun _ => ⟨0, 0, 0⟩⟩).descriptor.hashes = [] ∧
    (mount_from_directory 7 [EntryOutcome.opened (.error 5), EntryOutcome.unreadable]
        ⟨fun d => d, fun _ => 0, fun _ => ⟨0, 0, 0⟩⟩).descriptor.header.size =
      roundUp nrrHeaderSize 0x1000 ∧
    (mount_from_directory 7 [EntryOutcome.opened (.error 5), EntryOutcome.unreadable]
        ⟨fun d => d, fun _ => 0, fun _ => ⟨0, 0, 0⟩⟩).descriptor.allocSize =
      roundUp nrrHeaderSize 0x1000 ∧
    ((fun _ => (0 : Nat))
        (mount_from_directory 7
          [EntryOutcome.opened (.error 5), EntryOutcome.unreadable]
          ⟨fun d => d, fun _ => 0, fun _ => ⟨0, 0, 0⟩⟩).descriptor = 0 →
      ∃ mods, (mount_from_directory 7
          [EntryOutcome.opened (.error 5), EntryOutcome.unreadable]
          ⟨fun d => d, fun _ => 0, fun _ => ⟨0, 0, 0⟩⟩).ret =
          some (.ok { modules := mods, registration_info := () }) ∧
        mods.length = (collectPlugins
          [EntryOutcome.opened (.error 5), EntryOutcome.unreadable]).length ∧
        ∀ r ∈ mods, ∃ e, r = .error e) :=
  c10_empty_batch 7 [EntryOutcome.opened (.error 5), EntryOutcome.unreadable]
    ⟨fun d => d, fun _ => 0, fun _ => ⟨0, 0, 0⟩⟩ rfl

end Loader
